import Mathlib

/-!
Verification of the Indic_ASR streaming pipeline against its specification.

The definitions below are a shallow embedding of the Python source:
  * `app/services/diarization.py` — `StreamingDiarizer.process` (rolling
    window, clock, segment filtering, speaker-label selection, fallback,
    error containment);
  * `app/services/alignment.py` — `add_text_to_diarization_segments`;
  * `app/api/asr_router.py` — the audio byte buffer / flush logic,
    `ConnectionManager` (connect / disconnect / broadcast), the shared
    language state, and the receive-loop exit handling of
    `transcribe_audio_stream`.

Python floats are modelled as `Rat` (the arithmetic involved is exact at the
inputs of interest), numpy arrays as `List Rat`, byte strings as `List Nat`
(each entry < 256), and raised exceptions as explicit outcome values.
-/

namespace IndicASR

/-! ### Rolling window (diarization.py, StreamingDiarizer.process, lines 226–241)

`np.roll(buffer, -n, axis=1)` circularly shifts the sample axis left by `n`;
the code then overwrites the last `n` positions with the incoming chunk.
-/

/-- Result of `np.roll(xs, -n)` on a one-dimensional array viewed as a list:
a circular left shift by `n` positions. -/
def rollLeft (n : Nat) (xs : List α) : List α :=
  xs.drop n ++ xs.take n

/-- Result of the slice assignment `xs[-chunk.length:] = chunk`: the last
`chunk.length` entries of `xs` are replaced by `chunk`. -/
def setTail (xs chunk : List α) : List α :=
  xs.take (xs.length - chunk.length) ++ chunk

/-- The last `n` entries of a list (the Python slice `xs[-n:]` when `n ≤ len(xs)`). -/
def lastN (n : Nat) (xs : List α) : List α :=
  xs.drop (xs.length - n)

/-- Embedding of the rolling-window update in `StreamingDiarizer.process`
(diarization.py lines 232–241): if the incoming chunk has at least
`capacity` samples, the window becomes the chunk's last `capacity` samples
(`waveform[:, -expected_samples:]`); otherwise the window is rolled left by
the chunk length (`np.roll`) and the chunk is written over the tail. -/
def updateWindow (buffer chunk : List α) (capacity : Nat) : List α :=
  if capacity ≤ chunk.length then
    lastN capacity chunk
  else
    setTail (rollLeft chunk.length buffer) chunk

/-! ### StreamingDiarizer state and per-call step (diarization.py lines 189–321) -/

/-- One labelled segment of the diarization output after the library-side
crop to the new interval: what the loop at diarization.py lines 283–286
iterates over (`cropped.itertracks(yield_label=True)`). -/
structure LabeledSeg where
  start : Rat
  stop : Rat
  label : String
deriving DecidableEq, Repr

/-- Duration of a segment, as pyannote's `segment.duration` (end − start). -/
def LabeledSeg.duration (s : LabeledSeg) : Rat :=
  s.stop - s.start

/-- Labels of the segments surviving the anti-flicker filter
(diarization.py lines 282–286): a label is appended exactly when
`segment.duration > 0.05`. -/
def survivingLabels (segs : List LabeledSeg) : List String :=
  (segs.filter fun s => decide ((1 : Rat)/20 < s.duration)).map (·.label)

/-- Occurrence count of a label in a list (what `collections.Counter` stores). -/
def countLabel (l : String) (xs : List String) : Nat :=
  (xs.filter fun x => decide (x = l)).length

/-- Embedding of `Counter(speakers).most_common(1)`: the element of `xs` with
the greatest occurrence count, ties broken by first occurrence (CPython's
`Counter` preserves first-insertion order among equal counts). -/
def mostCommon (xs : List String) : Option String :=
  xs.eraseDups.foldl
    (fun best l =>
      match best with
      | none => some l
      | some b => if countLabel b xs < countLabel l xs then some l else best)
    none

/-- Whether `pat` matches the leading characters of `cs`. -/
def leadMatch : List Char → List Char → Bool
  | [], _ => true
  | _ :: _, [] => false
  | p :: ps, c :: cs => decide (p = c) && leadMatch ps cs

/-- Python `pat in s` on character lists: `pat` occurs somewhere in `cs`. -/
def containsSeq (pat : List Char) : List Char → Bool
  | [] => leadMatch pat []
  | c :: cs => leadMatch pat (c :: cs) || containsSeq pat cs

/-- Python `s.replace(pat, rep)` on character lists, for non-empty `pat`:
scan left to right, replacing each (non-overlapping) occurrence of `pat` by
`rep`. The first argument counts characters of a just-matched occurrence
still to be consumed. -/
def replaceAux (pat rep : List Char) : Nat → List Char → List Char
  | _, [] => []
  | skip + 1, _ :: cs => replaceAux pat rep skip cs
  | 0, c :: cs =>
    if leadMatch pat (c :: cs) then
      rep ++ replaceAux pat rep (pat.length - 1) cs
    else
      c :: replaceAux pat rep 0 cs

/-- Embedding of the label normalization at diarization.py lines 304–307:
if the text "speaker" occurs in the label, every occurrence is replaced by
"Speaker " (`speaker_label.replace("speaker", "Speaker ")`); otherwise the
label is prefixed with "Speaker ". -/
def normalizeLabel (l : String) : String :=
  if containsSeq "speaker".data l.data then
    String.mk (replaceAux "speaker".data "Speaker ".data 0 l.data)
  else
    "Speaker " ++ l

/-- Mutable per-session state of `StreamingDiarizer` (diarization.py
lines 122–128): whether the diart pipeline loaded, the last returned
speaker label, the clock, and the rolling audio window (`None` before the
first `process` call). -/
structure DiarizerState where
  pipelineLoaded : Bool
  lastSpeaker : Option String
  clock : Rat
  audioBuffer : Option (List Rat)
deriving DecidableEq, Repr

/-- Initial state built by `StreamingDiarizer.__init__` when the pipeline
loads: no last speaker, clock 0.0, no window yet. -/
def initDiarizer : DiarizerState :=
  { pipelineLoaded := true, lastSpeaker := none, clock := 0, audioBuffer := none }

/-- Outcome of the call `self.pipeline([chunk])` followed by the library-side
crop of its output to the new interval: either the cropped segment list, or a
raised exception (`err`). The pipeline and the crop live in external
libraries (diart / pyannote); the segment list is their oracle output. -/
inductive InferOutcome where
  | ok (cropped : List LabeledSeg)
  | err
deriving DecidableEq, Repr

/-- Embedding of `StreamingDiarizer.process` (diarization.py lines 189–321).
Returns the label handed back to the caller (`none` models Python `None`)
paired with the post-call state. `capacity` stands for
`int(pipeline.config.duration * pipeline.config.sample_rate)` and `rate` for
`Config.SAMPLING_RATE`. If the pipeline never loaded, the call returns
`None` untouched (line 199–200). Otherwise the window is initialized to
silence on first use (lines 226–228), updated (lines 232–241), the clock is
advanced by `new_samples / Config.SAMPLING_RATE` (lines 250–257), and the
inference outcome is inspected: a raised exception is caught and surfaces as
`None` with the already-updated window and clock kept (lines 316–321); on
success the surviving labels of the cropped output pick the reply
(lines 282–314). -/
def processStep (st : DiarizerState) (chunk : List Rat) (capacity rate : Nat)
    (outcome : InferOutcome) : Option String × DiarizerState :=
  if st.pipelineLoaded = false then
    (none, st)
  else
    let buf0 := st.audioBuffer.getD (List.replicate capacity 0)
    let buf1 := updateWindow buf0 chunk capacity
    let clock1 := st.clock + (chunk.length : Rat) / (rate : Rat)
    let st1 : DiarizerState := { st with audioBuffer := some buf1, clock := clock1 }
    match outcome with
    | .err => (none, st1)
    | .ok cropped =>
      let speakers := survivingLabels cropped
      if speakers.isEmpty then
        match st.lastSpeaker with
        | some l => (some l, st1)
        | none => (some "Identifying...", st1)
      else
        match mostCommon speakers with
        | some sl =>
          let sp := normalizeLabel sl
          (some sp, { st1 with lastSpeaker := some sp })
        | none =>
          match st.lastSpeaker with
          | some l => (some l, st1)
          | none => (some "Identifying...", st1)

/-! ### Word/turn alignment (alignment.py, add_text_to_diarization_segments) -/

/-- One diarization turn as handed to the aligner: the dict
`{"speaker": ..., "start": ..., "end": ...}`. -/
structure Turn where
  speaker : String
  start : Rat
  stop : Rat
deriving DecidableEq, Repr

/-- One output entry of the aligner. `text = none` models a dict without a
"text" key (the early return at alignment.py line 16 hands back the input
dicts unchanged); `text = some s` models `{"text": s}` added at line 55. -/
structure AnnTurn where
  speaker : String
  start : Rat
  stop : Rat
  text : Option String
deriving DecidableEq, Repr

/-- One entry of the `word_timestamps` argument: a dict (with optional
"word"/"text", "start", "end" keys, `none` modelling an absent key or a
`None` value), a tuple/list of length ≥ 3, or anything else. -/
inductive RawWord where
  | dictW (word : Option String) (text : Option String) (start stop : Option Rat)
  | tupleW (word : String) (start stop : Rat)
  | other
deriving DecidableEq, Repr

/-- A normalized word (alignment.py line 33). -/
structure NormWord where
  word : String
  start : Rat
  stop : Rat
deriving DecidableEq, Repr

/-- Python `a or b` on optional strings: `None` and `""` are falsy
(alignment.py line 24, `item.get('word') or item.get('text')`). -/
def pyOr (a b : Option String) : Option String :=
  match a with
  | some s => if s = "" then b else some s
  | none => b

/-- Embedding of the normalization loop body (alignment.py lines 20–33):
an entry survives exactly when its word is truthy (present and non-empty)
and both timestamps are present. -/
def normalizeWord : RawWord → Option NormWord
  | .dictW w t s e =>
    match pyOr w t, s, e with
    | some wd, some a, some b => if wd = "" then none else some ⟨wd, a, b⟩
    | _, _, _ => none
  | .tupleW w s e => if w = "" then none else some ⟨w, s, e⟩
  | .other => none

/-- Midpoint of a word's time span, `(start + end) / 2` (alignment.py line 47). -/
def NormWord.midpoint (w : NormWord) : Rat :=
  (w.start + w.stop) / 2

/-- Embedding of `add_text_to_diarization_segments` (alignment.py
lines 4–58): empty `diarization` yields `[]` (line 12); empty
`word_timestamps` returns the turns unchanged, with no text attached
(line 16); otherwise each turn, in input order, receives the
space-concatenation of the words, in input order, whose midpoint lies in
`[start, end]` inclusive (lines 40–56). -/
def addTextToDiarizationSegments (wordTimestamps : List RawWord)
    (diarization : List Turn) : List AnnTurn :=
  if diarization.isEmpty then
    []
  else if wordTimestamps.isEmpty then
    diarization.map fun t => ⟨t.speaker, t.start, t.stop, none⟩
  else
    let normalizedWords := wordTimestamps.filterMap normalizeWord
    diarization.map fun seg =>
      let segmentWords :=
        (normalizedWords.filter fun w =>
          decide (seg.start ≤ w.midpoint) && decide (w.midpoint ≤ seg.stop)).map (·.word)
      ⟨seg.speaker, seg.start, seg.stop, some (String.intercalate " " segmentWords)⟩

/-! ### Streaming audio buffer and flush (asr_router.py lines 124–157)

Bytes accumulate in a `bytearray`; once the threshold is reached the whole
buffer is reinterpreted as little-endian int16 samples and scaled by
1/32768 (`np.frombuffer(audio_buffer, dtype=np.int16).astype(np.float32) /
32768.0`), and the buffer is replaced by a fresh empty one.
-/

/-- Byte buffer after extending an initial buffer with a sequence of chunks
(`audio_buffer.extend(data)` at asr_router.py line 135, once per chunk). -/
def extendAll (buf : List Nat) (chunks : List (List Nat)) : List Nat :=
  chunks.foldl (fun b c => b ++ c) buf

/-- Signed 16-bit integer encoded by two little-endian bytes. -/
def int16OfLE (b0 b1 : Nat) : Int :=
  let u := b0 % 256 + 256 * (b1 % 256)
  if u < 32768 then (u : Int) else (u : Int) - 65536

/-- Consecutive byte pairs of a buffer (the int16 view of `np.frombuffer`). -/
def bytePairs : List Nat → List (Nat × Nat)
  | b0 :: b1 :: rest => (b0, b1) :: bytePairs rest
  | _ => []

/-- Embedding of the buffer-to-waveform conversion at asr_router.py
line 139: each little-endian int16 sample divided by 32768.0. A buffer of
odd length makes `np.frombuffer` raise (buffer size must be a multiple of
the element size), modelled as `none`. -/
def flushWaveform (buf : List Nat) : Option (List Rat) :=
  if buf.length % 2 = 0 then
    some ((bytePairs buf).map fun p => (int16OfLE p.1 p.2 : Rat) / 32768)
  else
    none

/-- Embedding of the flush step (asr_router.py lines 139 and 157): convert
the whole buffer to a waveform and reset the buffer to a fresh empty
`bytearray()`. -/
def flushBuffer (buf : List Nat) : Option (List Rat) × List Nat :=
  (flushWaveform buf, [])

/-! ### ConnectionManager and broadcast (asr_router.py lines 24–47) -/

/-- Registry of live websocket connections
(`ConnectionManager.active_connections`), abstract in the connection type. -/
structure ManagerState (α : Type) where
  active : List α
deriving DecidableEq, Repr

/-- Embedding of `ConnectionManager.connect` (lines 28–30): the accepted
connection is appended to the registry. -/
def connect (st : ManagerState α) (ws : α) : ManagerState α :=
  ⟨st.active ++ [ws]⟩

/-- Embedding of `ConnectionManager.disconnect` (lines 32–34): the
connection is removed if present (`list.remove` drops the first
occurrence), otherwise the registry is unchanged. -/
def disconnect [DecidableEq α] (st : ManagerState α) (ws : α) : ManagerState α :=
  ⟨st.active.erase ws⟩

/-- Outcome of one `await connection.send_text(payload)`: normal return or
a raised exception carrying a value of type `ε`. -/
def SendResult (ε : Type) := Except ε Unit

/-- Embedding of the broadcast loop body (lines 39–45): each send is wrapped
in `try ... except Exception: pass`, so a raised exception is swallowed for
that connection and the loop moves on. Returns `(attempted, delivered)` —
the connections a send was attempted to and those it succeeded for — inside
`Except`, whose `error` branch models an exception escaping the loop. -/
def sendLoop (send : α → Except ε Unit) : List α → Except ε (List α × List α)
  | [] => .ok ([], [])
  | c :: rest =>
    let step : Except ε Bool :=
      match send c with
      | .ok _ => .ok true
      | .error _ => .ok false
    match step with
    | .error e => .error e
    | .ok delivered =>
      match sendLoop send rest with
      | .error e => .error e
      | .ok (att, del) => .ok (c :: att, if delivered then c :: del else del)

/-- Embedding of `ConnectionManager.broadcast` (lines 36–45): the message is
serialized once (`payload = json.dumps(message)` before the loop), then the
loop attempts delivery to every registered connection. Returns the number
of serializations, the attempted and delivered connection lists, and the
registry as broadcast leaves it (the method never mutates
`active_connections`). -/
def broadcast (st : ManagerState α) (send : α → Except ε Unit) :
    Except ε (Nat × List α × List α × ManagerState α) :=
  match sendLoop send st.active with
  | .error e => .error e
  | .ok (att, del) => .ok (1, att, del, st)

/-! ### Shared language state and config messages (asr_router.py lines 18–22, 143, 159–175) -/

/-- Modelled from the spec: the `Language` enum of `app/constants/enums.py`
is imported by the router but its source is not part of the repository
snapshot; spec §6 fixes the supported codes to the enumerated set
`hi | ne | mai`, and the router defaults to `Language.hindi`. -/
inductive Language where
  | hindi
  | nepali
  | maithili
deriving DecidableEq, Repr

/-- Wire value of each language code (spec §6: `<hi|ne|mai>`). -/
def Language.value : Language → String
  | .hindi => "hi"
  | .nepali => "ne"
  | .maithili => "mai"

/-- All members of the enum, as iterated by `[l.value for l in Language]`
(asr_router.py line 164). -/
def Language.all : List Language :=
  [.hindi, .nepali, .maithili]

/-- Python `Language(code)`: the member whose value equals the code. -/
def Language.ofValue (s : String) : Option Language :=
  Language.all.find? fun l => decide (l.value = s)

/-- Process-wide shared state (`GlobalAppState`, asr_router.py lines 18–22):
a single mutable language read by every session. -/
structure AppState where
  currentLanguage : Language
deriving DecidableEq, Repr

/-- Initial shared state (`Language.hindi`, asr_router.py line 20). -/
def initAppState : AppState :=
  { currentLanguage := .hindi }

/-- An outbound JSON frame of the streaming endpoint. -/
inductive ServerMsg where
  | config (language : String)
  | transcription (text language source : String)
  | errorMsg (message : String)
deriving DecidableEq, Repr

/-- Embedding of the config-message handling (asr_router.py lines 159–170)
for an already-parsed JSON object, given as the values of its "type" and
"language" keys (`none` for an absent key). When the type is "config" and
the language is one of the enum values, the shared state is updated via
`Language(new_lang)` and a config frame is queued for broadcast to all
connections; otherwise nothing happens. -/
def handleControl (st : AppState) (msgType : Option String)
    (newLang : Option String) : AppState × List ServerMsg :=
  if msgType = some "config" then
    match newLang with
    | some l =>
      match Language.ofValue l with
      | some lang => ({ currentLanguage := lang }, [.config l])
      | none => (st, [])
    | none => (st, [])
  else
    (st, [])

/-- Embedding of the streaming transcription call (asr_router.py line 143):
`asr_model.transcribe_tensor(tensor, language_id=app_state.current_language.value)`
reads the shared state at call time, whichever connection triggered it.
`infer` is the opaque acoustic model. -/
def transcribeCall (st : AppState) (infer : List Rat → String → String)
    (waveform : List Rat) : String :=
  infer waveform st.currentLanguage.value

/-! ### Receive-loop exit handling (asr_router.py lines 128–189)

The per-connection loop awaits messages; `WebSocketDisconnect` is handled
by the inner clause at lines 177–180 (disconnect, break), any other
exception by the clause at lines 181–184 (send an error frame, break). If
that error-frame send itself raises, the exception leaves the loop and
reaches the outer handler at lines 186–189 (disconnect, re-raise).
-/

/-- Reason the `await websocket.receive()` at line 130 (or the handling of
its message) raised out of the loop body. -/
inductive RecvOutcome where
  | wsDisconnect
  | otherExc
deriving DecidableEq, Repr

/-- Outcome of the `await websocket.send_json({"type": "error", ...})`
inside the generic exception clause (line 183). -/
inductive SendOutcome where
  | ok
  | fails
deriving DecidableEq, Repr

/-- Embedding of the session teardown paths of `transcribe_audio_stream`:
given the registry, the raising connection, the kind of exception that
ended the loop, and whether the error-frame send succeeds, returns the
registry after the handler runs and whether an exception re-raises to the
framework. `WebSocketDisconnect` → disconnect, no re-raise (lines
177–180). Any other exception → if the error frame sends, the loop just
breaks and the registry is untouched (lines 181–184); if that send raises,
the outer handler disconnects and re-raises (lines 186–189). -/
def sessionExit [DecidableEq α] (reg : ManagerState α) (ws : α)
    (recv : RecvOutcome) (errorSend : SendOutcome) : ManagerState α × Bool :=
  match recv with
  | .wsDisconnect => (disconnect reg ws, false)
  | .otherExc =>
    match errorSend with
    | .ok => (reg, false)
    | .fails => (disconnect reg ws, true)

/-! ## Helper lemmas -/

/-- Closed form of the rolling-window update when the stored window has
exactly `capacity` samples: either the chunk's last `capacity` samples, or
the old window shifted left by the chunk length with the chunk appended. -/
theorem updateWindow_eq (buf chunk : List α) (capacity : Nat)
    (hb : buf.length = capacity) :
    updateWindow buf chunk capacity =
      if capacity ≤ chunk.length then lastN capacity chunk
      else buf.drop chunk.length ++ chunk := by
  unfold updateWindow
  split
  · rfl
  · unfold setTail rollLeft
    have h : (buf.drop chunk.length).length =
        (buf.drop chunk.length ++ buf.take chunk.length).length - chunk.length := by
      simp
      omega
    rw [List.take_left' h]

/-- After a successful `process` call, the state's window is the updated
rolling window and the clock has advanced by `chunk_samples / rate`,
whatever the inference outcome. -/
theorem processStep_state (st : DiarizerState) (chunk : List Rat)
    (capacity rate : Nat) (outcome : InferOutcome)
    (hp : st.pipelineLoaded = true) :
    (processStep st chunk capacity rate outcome).2.audioBuffer =
      some (updateWindow (st.audioBuffer.getD (List.replicate capacity 0))
        chunk capacity) ∧
    (processStep st chunk capacity rate outcome).2.clock =
      st.clock + (chunk.length : Rat) / (rate : Rat) := by
  unfold processStep
  rw [hp]
  simp only [Bool.true_eq_false, if_false]
  cases outcome with
  | err => exact ⟨rfl, rfl⟩
  | ok cropped =>
    by_cases hs : (survivingLabels cropped).isEmpty <;>
      simp only [hs, if_true, if_false] <;>
      [cases st.lastSpeaker; cases hmc : mostCommon (survivingLabels cropped)] <;>
      try exact ⟨rfl, rfl⟩
    cases st.lastSpeaker <;> exact ⟨rfl, rfl⟩

/-! ## Claim C1 — rolling-window update -/

/-- C1. For every call to `StreamingDiarizer.process` (with a loaded
pipeline and a well-formed stored window of `capacity` samples): if the
incoming chunk has at least `capacity` samples, the post-update rolling
window is exactly the chunk's last `capacity` samples; otherwise the window
is the old window's last `capacity − chunk_len` samples followed by the
chunk (a left shift by the chunk length with the chunk appended at the
tail). -/
theorem c1_rolling_window (st : DiarizerState) (chunk : List Rat)
    (capacity rate : Nat) (outcome : InferOutcome)
    (hp : st.pipelineLoaded = true)
    (hb : (st.audioBuffer.getD (List.replicate capacity 0)).length = capacity) :
    (processStep st chunk capacity rate outcome).2.audioBuffer =
      some (if capacity ≤ chunk.length then lastN capacity chunk
        else lastN (capacity - chunk.length)
          (st.audioBuffer.getD (List.replicate capacity 0)) ++ chunk) := by
  rw [(processStep_state st chunk capacity rate outcome hp).1,
    updateWindow_eq _ _ _ hb]
  by_cases hc : capacity ≤ chunk.length
  · simp [hc]
  · have hdrop : (st.audioBuffer.getD (List.replicate capacity 0)).drop chunk.length
        = lastN (capacity - chunk.length)
            (st.audioBuffer.getD (List.replicate capacity 0)) := by
      unfold lastN
      rw [hb]
      congr 1
      omega
    simp [hc, hdrop]

/-- Witness for C1 at a concrete input: window `[1,2,3,4]`, chunk `[9,9]`,
capacity 4 — the updated window is `[3,4,9,9]`. -/
theorem c1_rolling_window_witness :
    (processStep
      { pipelineLoaded := true, lastSpeaker := none, clock := 0,
        audioBuffer := some [1, 2, 3, 4] }
      [9, 9] 4 16000 .err).2.audioBuffer = some [3, 4, 9, 9] := by
  have h := c1_rolling_window
    { pipelineLoaded := true, lastSpeaker := none, clock := 0,
      audioBuffer := some [1, 2, 3, 4] }
    [9, 9] 4 16000 .err rfl (by decide)
  rw [h]
  decide

/-! ## Claim C2 — clock monotonicity -/

/-- C2. On every `process` call (loaded pipeline, chunk with positive
sample count, positive sample rate), the clock advances by exactly
`chunk_samples / sample_rate` and strictly increases; since every call adds
a positive amount, the clock never decreases and is never reset within a
session. -/
theorem c2_clock_monotone (st : DiarizerState) (chunk : List Rat)
    (capacity rate : Nat) (outcome : InferOutcome)
    (hp : st.pipelineLoaded = true)
    (hlen : 0 < chunk.length) (hrate : 0 < rate) :
    (processStep st chunk capacity rate outcome).2.clock =
      st.clock + (chunk.length : Rat) / (rate : Rat) ∧
    st.clock < (processStep st chunk capacity rate outcome).2.clock := by
  have h := (processStep_state st chunk capacity rate outcome hp).2
  refine ⟨h, ?_⟩
  rw [h]
  have hpos : (0 : Rat) < (chunk.length : Rat) / (rate : Rat) := by
    apply div_pos
    · exact_mod_cast hlen
    · exact_mod_cast hrate
  linarith

/-- Witness for C2 at a concrete input: a one-sample chunk at 16 kHz
advances the clock from 0 to 1/16000. -/
theorem c2_clock_monotone_witness :
    (processStep initDiarizer [0] 4 16000 .err).2.clock = 0 + (1 : Rat) / 16000 ∧
    (0 : Rat) < (processStep initDiarizer [0] 4 16000 .err).2.clock := by
  have h := c2_clock_monotone initDiarizer [0] 4 16000 .err rfl
    (by decide) (by decide)
  simpa [initDiarizer] using h

/-! ## Claim C4 — error containment -/

/-- C4. `StreamingDiarizer.process` never propagates an exception: an
internal inference error (the `err` outcome, covering anything raised
inside the per-call try block) is caught within the call and `process`
returns `None`, for every state and input. -/
theorem c4_error_contained (st : DiarizerState) (chunk : List Rat)
    (capacity rate : Nat) :
    (processStep st chunk capacity rate .err).1 = none := by
  unfold processStep
  split <;> rfl

/-! ## Claim C3 — anti-flicker filter and fallback

The code keeps a segment only when `segment.duration > 0.05` (strict), so a
segment lasting exactly 50 ms — which is not "shorter than 50 ms" — is also
discarded. The claim as stated (discard only the segments strictly shorter
than 50 ms) therefore fails at the boundary.
-/

/-- Returned label of a successful `process` call whose filtered speaker
list is empty: the last known label, defaulting to the sentinel. -/
theorem processStep_no_survivors (st : DiarizerState) (chunk : List Rat)
    (capacity rate : Nat) (cropped : List LabeledSeg)
    (hp : st.pipelineLoaded = true)
    (hsl : survivingLabels cropped = []) :
    (processStep st chunk capacity rate (.ok cropped)).1 =
      some (st.lastSpeaker.getD "Identifying...") := by
  unfold processStep
  rw [hp]
  simp only [Bool.true_eq_false, if_false, hsl]
  cases st.lastSpeaker <;> rfl

/-- C3 counterexample: a cropped output holding a single segment of
duration exactly 50 ms (`1/20` s), which is not shorter than 50 ms and so
per the claim would survive the filter and have its label returned;
the code discards it (`duration > 0.05` is strict) and, with no last known
speaker, returns the sentinel instead. -/
theorem c3_counterexample :
    ¬ (LabeledSeg.duration { start := 0, stop := 1/20, label := "speaker0" }
        < 1/20) ∧
    (processStep initDiarizer [0] 4 16000
        (.ok [{ start := 0, stop := 1/20, label := "speaker0" }])).1 =
      some "Identifying..." ∧
    "Identifying..." ≠ normalizeLabel "speaker0" := by
  refine ⟨by norm_num [LabeledSeg.duration], ?_, by decide⟩
  rw [processStep_no_survivors initDiarizer [0] 4 16000 _ rfl ?_]
  · rfl
  · unfold survivingLabels
    rw [List.filter_eq_nil_iff.mpr]
    · rfl
    · intro s hs
      simp only [List.mem_singleton] at hs
      subst hs
      simp only [decide_eq_true_eq, not_lt, LabeledSeg.duration]
      norm_num

/-- C3 amended. Label segments of the cropped annotation lasting at most
50 ms are discarded (only segments strictly longer than 50 ms survive); if
no segment survives the filter, `process` returns the last known speaker
label when one exists and the sentinel "Identifying..." otherwise. -/
theorem c3_short_segment_fallback (st : DiarizerState) (chunk : List Rat)
    (capacity rate : Nat) (cropped : List LabeledSeg)
    (hp : st.pipelineLoaded = true)
    (hshort : ∀ s ∈ cropped, s.duration ≤ 1/20) :
    survivingLabels cropped = [] ∧
    (processStep st chunk capacity rate (.ok cropped)).1 =
      some (st.lastSpeaker.getD "Identifying...") := by
  have hsl : survivingLabels cropped = [] := by
    unfold survivingLabels
    rw [List.filter_eq_nil_iff.mpr]
    · rfl
    · intro s hs
      simpa using not_lt.mpr (hshort s hs)
  exact ⟨hsl, processStep_no_survivors st chunk capacity rate cropped hp hsl⟩

/-- Witness for C3 (amended) at a concrete input: one 40 ms segment is
filtered out and the prior label "Speaker 1" is returned. -/
theorem c3_short_segment_fallback_witness :
    survivingLabels [{ start := 0, stop := 1/25, label := "speaker0" }] = [] ∧
    (processStep
      { pipelineLoaded := true, lastSpeaker := some "Speaker 1", clock := 0,
        audioBuffer := none }
      [0] 4 16000
      (.ok [{ start := 0, stop := 1/25, label := "speaker0" }])).1 =
      some "Speaker 1" :=
  c3_short_segment_fallback
    { pipelineLoaded := true, lastSpeaker := some "Speaker 1", clock := 0,
      audioBuffer := none }
    [0] 4 16000 [{ start := 0, stop := 1/25, label := "speaker0" }]
    rfl (by
      intro s hs
      simp only [List.mem_singleton] at hs
      subst hs
      norm_num [LabeledSeg.duration])

/-! ## Claim C5 — byte buffer accumulation and flush -/

/-- Appending chunks to a byte buffer adds exactly the sum of their
lengths. -/
theorem extendAll_length (buf : List Nat) (chunks : List (List Nat)) :
    (extendAll buf chunks).length = buf.length + (chunks.map List.length).sum := by
  induction chunks generalizing buf with
  | nil => simp [extendAll]
  | cons c rest ih =>
    simp only [extendAll, List.foldl_cons, List.map_cons, List.sum_cons] at *
    rw [ih]
    simp
    omega

/-- A buffer of `2k` bytes yields `k` int16 byte pairs. -/
theorem bytePairs_length : ∀ l : List Nat, (bytePairs l).length = l.length / 2
  | [] => rfl
  | [_] => by simp [bytePairs]
  | _ :: _ :: rest => by
    simp only [bytePairs, List.length_cons, bytePairs_length rest]
    omega

/-- C5. For every sequence of appended byte chunks (of even total length —
PCM16 frames are two bytes per sample), the buffer after the appends has
exactly the summed chunk length (no loss, no duplication), and flushing it
yields a waveform of `buffer_length / 2` samples, each a little-endian
int16 value divided by 32768, after which the buffer is reset to empty. -/
theorem c5_buffer_flush (chunks : List (List Nat))
    (heven : (extendAll [] chunks).length % 2 = 0) :
    (extendAll [] chunks).length = (chunks.map List.length).sum ∧
    ∃ w, flushBuffer (extendAll [] chunks) = (some w, []) ∧
      w.length = (extendAll [] chunks).length / 2 ∧
      w = (bytePairs (extendAll [] chunks)).map
        (fun p => (int16OfLE p.1 p.2 : Rat) / 32768) := by
  refine ⟨by simpa using extendAll_length [] chunks, ?_⟩
  refine ⟨(bytePairs (extendAll [] chunks)).map
    (fun p => (int16OfLE p.1 p.2 : Rat) / 32768), ?_, ?_, rfl⟩
  · unfold flushBuffer flushWaveform
    rw [if_pos heven]
  · rw [List.length_map, bytePairs_length]

/-- Witness for C5 at a concrete input: chunks `[0,128]` and `[255,255]`
accumulate to 4 bytes and flush to the two samples `[-1, -1/32768]`. -/
theorem c5_buffer_flush_witness :
    (extendAll [] [[0, 128], [255, 255]]).length = 4 ∧
    flushBuffer (extendAll [] [[0, 128], [255, 255]]) =
      (some [-1, (-1 : Rat)/32768], []) := by
  have h := c5_buffer_flush [[0, 128], [255, 255]] (by decide)
  obtain ⟨hlen, w, hfl, hwlen, hw⟩ := h
  refine ⟨by simpa using hlen, ?_⟩
  rw [hfl, hw]
  simp only [extendAll, List.foldl_cons, List.foldl_nil, List.nil_append,
    List.cons_append, bytePairs, List.map_cons, List.map_nil, int16OfLE]
  norm_num

/-! ## Claim C6 — aligner edge cases

With an empty `turns` list the result is `[]`, as claimed. But with an
empty `words` list the aligner returns the input turns unchanged
(alignment.py line 16, `return diarization`) — no empty text field is
attached. Only when the word list is non-empty but normalizes to nothing do
the turns come back with `text = ""`.
-/

/-- C6 counterexample: with one turn and an empty word list the aligner
hands back the turn with no text field, not with an empty text field as
the claim states. -/
theorem c6_counterexample :
    addTextToDiarizationSegments [] [{ speaker := "A", start := 0, stop := 1 }] =
      [{ speaker := "A", start := 0, stop := 1, text := none }] ∧
    ([{ speaker := "A", start := 0, stop := 1, text := none }] : List AnnTurn) ≠
      [{ speaker := "A", start := 0, stop := 1, text := some "" }] := by
  constructor
  · rfl
  · intro h
    simpa using congrArg (fun l => l.map AnnTurn.text) h

/-- C6 amended. If the turn list is empty the result is empty; if the word
list is empty the result is the input turns unchanged, with no text field
attached; if the word list is non-empty but no entry survives
normalization, the result echoes every turn with an empty text field. -/
theorem c6_empty_cases (words : List RawWord) (turns : List Turn) :
    addTextToDiarizationSegments words [] = [] ∧
    (words = [] → addTextToDiarizationSegments words turns =
      turns.map fun t => ⟨t.speaker, t.start, t.stop, none⟩) ∧
    (words ≠ [] → words.filterMap normalizeWord = [] →
      addTextToDiarizationSegments words turns =
        turns.map fun t => ⟨t.speaker, t.start, t.stop, some ""⟩) := by
  refine ⟨rfl, ?_, ?_⟩
  · intro hw
    subst hw
    unfold addTextToDiarizationSegments
    by_cases ht : turns = []
    · subst ht; rfl
    · simp [List.isEmpty_iff, ht]
  · intro hw hnorm
    unfold addTextToDiarizationSegments
    by_cases ht : turns = []
    · subst ht; rfl
    · simp [List.isEmpty_iff, ht, hw, hnorm, String.intercalate]

/-- Witness for C6 (amended) at a concrete input: one malformed word entry
normalizes to nothing, so the turn is echoed with empty text. -/
theorem c6_empty_cases_witness :
    addTextToDiarizationSegments [RawWord.other]
      [{ speaker := "A", start := 0, stop := 1 }] =
      [{ speaker := "A", start := 0, stop := 1, text := some "" }] :=
  (c6_empty_cases [RawWord.other] [{ speaker := "A", start := 0, stop := 1 }]).2.2
    (by simp) rfl

/-! ## Claim C7 — midpoint alignment -/

/-- Tuple entries whose word text is non-empty all survive normalization
unchanged. -/
theorem filterMap_normalize_tuples (words : List NormWord)
    (hvalid : ∀ w ∈ words, w.word ≠ "") :
    ((words.map fun w => RawWord.tupleW w.word w.start w.stop).filterMap
      normalizeWord) = words := by
  induction words with
  | nil => rfl
  | cons a rest ih =>
    have ha : a.word ≠ "" := hvalid a (List.mem_cons_self a rest)
    have hrest : ∀ w ∈ rest, w.word ≠ "" :=
      fun w hw => hvalid w (List.mem_cons_of_mem a hw)
    simp only [List.map_cons, List.filterMap_cons, normalizeWord,
      if_neg ha, ih hrest]

/-- C7. For every non-empty list of valid words (as `(word, start, end)`
tuples with non-empty text) and every list of turns, the aligner gives each
turn, in input order, exactly the words whose midpoint `(start+end)/2` lies
within `[turn.start, turn.end]` inclusive on both ends, concatenated with
single spaces in their original order; speaker and bounds are echoed. -/
theorem c7_midpoint_alignment (words : List NormWord) (turns : List Turn)
    (hvalid : ∀ w ∈ words, w.word ≠ "") (hne : words ≠ []) :
    addTextToDiarizationSegments
      (words.map fun w => RawWord.tupleW w.word w.start w.stop) turns =
      turns.map fun t =>
        { speaker := t.speaker, start := t.start, stop := t.stop,
          text := some (String.intercalate " "
            ((words.filter fun w =>
              decide (t.start ≤ w.midpoint) && decide (w.midpoint ≤ t.stop)).map
              (·.word))) } := by
  unfold addTextToDiarizationSegments
  by_cases ht : turns = []
  · subst ht; simp
  · rw [if_neg (by simpa using ht),
      if_neg (by simpa using hne),
      filterMap_normalize_tuples words hvalid]

/-- Witness for C7: the spec's own example — words ("one", 0, 0.5) and
("two", 0.6, 1) against turns A = [0, 0.55] and B = [0.55, 1.2] yield
texts "one" and "two". -/
theorem c7_midpoint_alignment_witness :
    addTextToDiarizationSegments
      (([{ word := "one", start := 0, stop := 1/2 },
         { word := "two", start := 3/5, stop := 1 }] : List NormWord).map
        fun w => RawWord.tupleW w.word w.start w.stop)
      [{ speaker := "A", start := 0, stop := 11/20 },
       { speaker := "B", start := 11/20, stop := 6/5 }] =
      [{ speaker := "A", start := 0, stop := 11/20, text := some "one" },
       { speaker := "B", start := 11/20, stop := 6/5, text := some "two" }] := by
  rw [c7_midpoint_alignment _ _ (by simp) (by simp)]
  simp only [List.map_cons, List.map_nil, List.filter_cons, List.filter_nil,
    NormWord.midpoint]
  norm_num [String.intercalate]
  exact ⟨rfl, rfl⟩

/-! ## Claim C8 — broadcast failure isolation -/

/-- Whether a send to a given connection returns normally. -/
def isOkSend (send : α → Except ε Unit) (c : α) : Bool :=
  match send c with
  | .ok _ => true
  | .error _ => false

/-- The broadcast loop never lets an exception escape: it attempts every
connection in order and delivers to exactly those whose send returns
normally. -/
theorem sendLoop_ok (send : α → Except ε Unit) : ∀ conns : List α,
    sendLoop send conns = .ok (conns, conns.filter (isOkSend send)) := by
  intro conns
  induction conns with
  | nil => rfl
  | cons c rest ih =>
    unfold sendLoop
    rw [ih]
    cases hsc : send c <;> simp [isOkSend, hsc, List.filter_cons]

/-- Closed form of `broadcast`: one serialization, every registered
connection attempted, delivery to exactly the connections whose send
succeeds, the registry untouched, and a normal (`ok`) return. -/
theorem broadcast_eq (st : ManagerState α) (send : α → Except ε Unit) :
    broadcast st send =
      .ok (1, st.active, st.active.filter (isOkSend send), st) := by
  unfold broadcast
  rw [sendLoop_ok]

/-- C8. `ConnectionManager.broadcast` serializes the message exactly once
and attempts delivery to every registered connection; a send that raises is
caught and ignored for that connection only — delivery is still attempted
to all remaining connections, the call returns normally (never an
exception), and the registry is not modified inside broadcast. -/
theorem c8_broadcast_isolation (α ε : Type) (st : ManagerState α)
    (send : α → Except ε Unit) :
    broadcast st send =
      .ok (1, st.active, st.active.filter (isOkSend send), st) :=
  broadcast_eq st send

/-! ## Claim C9 — config propagation -/

/-- C9. When any connection sends `{"type": "config", "language": L}` with
`L` a supported language code, the process-wide shared language becomes
`L`: the handler returns the updated shared state together with the config
frame to broadcast, every subsequent streaming transcription call — made
through the same shared state, whichever connection triggers it — uses
`L`, and the queued config frame is broadcast to (attempted at) every
registered connection. -/
theorem c9_config_propagation (α ε : Type) (st : AppState) (l : String)
    (hl : l ∈ Language.all.map Language.value) :
    ∃ lang : Language,
      Language.ofValue l = some lang ∧ lang.value = l ∧
      handleControl st (some "config") (some l) =
        ({ currentLanguage := lang }, [ServerMsg.config l]) ∧
      (∀ (infer : List Rat → String → String) (w : List Rat),
        transcribeCall (handleControl st (some "config") (some l)).1 infer w =
          infer w l) ∧
      (∀ (reg : ManagerState α) (send : α → Except ε Unit),
        broadcast reg send =
          .ok (1, reg.active, reg.active.filter (isOkSend send), reg)) := by
  simp only [Language.all, Language.value, List.map_cons, List.map_nil,
    List.mem_cons, List.not_mem_nil, or_false] at hl
  rcases hl with h | h | h <;> subst h
  · exact ⟨.hindi, rfl, rfl, rfl, fun infer w => rfl,
      fun reg send => broadcast_eq reg send⟩
  · exact ⟨.nepali, rfl, rfl, rfl, fun infer w => rfl,
      fun reg send => broadcast_eq reg send⟩
  · exact ⟨.maithili, rfl, rfl, rfl, fun infer w => rfl,
      fun reg send => broadcast_eq reg send⟩

/-- Witness for C9 at a concrete input: switching to "ne" from the initial
state updates the shared language and queues the config broadcast. -/
theorem c9_config_propagation_witness :
    ∃ lang : Language,
      Language.ofValue "ne" = some lang ∧ lang.value = "ne" ∧
      handleControl initAppState (some "config") (some "ne") =
        ({ currentLanguage := lang }, [ServerMsg.config "ne"]) ∧
      (∀ (infer : List Rat → String → String) (w : List Rat),
        transcribeCall (handleControl initAppState (some "config")
          (some "ne")).1 infer w = infer w "ne") ∧
      (∀ (reg : ManagerState Nat) (send : Nat → Except Unit Unit),
        broadcast reg send =
          .ok (1, reg.active, reg.active.filter (isOkSend send), reg)) :=
  c9_config_propagation Nat Unit initAppState "ne" (by decide)

/-! ## Claim C10 — registry membership after a non-disconnect loop exit

The generic-exception clause (asr_router.py lines 181–184) indeed leaves
the connection registered — but only when the error frame it sends back
succeeds. If that send itself raises, the exception reaches the outer
handler (lines 186–189), which removes the connection and re-raises. So a
receive loop that exits on a non-`WebSocketDisconnect` exception does not
always leave the connection registered, contradicting the claim.
-/

/-- C10 counterexample: a registry holding exactly the one connection `0`;
its receive loop exits on a non-disconnect exception and the error-frame
send also fails — the outer handler removes the connection (and re-raises),
so it is no longer registered. -/
theorem c10_counterexample :
    (sessionExit (⟨[0]⟩ : ManagerState Nat) 0 .otherExc .fails).1.active = [] ∧
    (sessionExit (⟨[0]⟩ : ManagerState Nat) 0 .otherExc .fails).2 = true ∧
    0 ∉ (sessionExit (⟨[0]⟩ : ManagerState Nat) 0 .otherExc .fails).1.active := by
  refine ⟨rfl, rfl, by simp [sessionExit, disconnect]⟩

/-- C10 amended. If the receive loop exits on a non-`WebSocketDisconnect`
exception and the error frame sent back to the client is delivered, the
connection stays registered and subsequent broadcasts still attempt
delivery to it; if that error-frame send itself raises, the outer handler
removes the connection from the registry and re-raises. -/
theorem c10_registry_after_exit (α ε : Type) [DecidableEq α]
    (reg : ManagerState α) (ws : α) (hmem : ws ∈ reg.active) :
    (sessionExit reg ws .otherExc .ok).1 = reg ∧
    ws ∈ (sessionExit reg ws .otherExc .ok).1.active ∧
    (∀ send : α → Except ε Unit,
      broadcast (sessionExit reg ws .otherExc .ok).1 send =
        .ok (1, reg.active, reg.active.filter (isOkSend send), reg)) ∧
    (sessionExit reg ws .otherExc .fails).1 = disconnect reg ws ∧
    (sessionExit reg ws .otherExc .fails).2 = true :=
  ⟨rfl, hmem, fun send => broadcast_eq reg send, rfl, rfl⟩

/-- Witness for C10 (amended) at a concrete input: connection `0` in a
two-connection registry stays registered when the error frame succeeds,
and broadcast still attempts it. -/
theorem c10_registry_after_exit_witness :
    (sessionExit (⟨[0, 1]⟩ : ManagerState Nat) 0 .otherExc .ok).1 = ⟨[0, 1]⟩ ∧
    0 ∈ (sessionExit (⟨[0, 1]⟩ : ManagerState Nat) 0 .otherExc .ok).1.active ∧
    (∀ send : Nat → Except Unit Unit,
      broadcast (sessionExit (⟨[0, 1]⟩ : ManagerState Nat) 0 .otherExc .ok).1 send =
        .ok (1, [0, 1], [0, 1].filter (isOkSend send), ⟨[0, 1]⟩)) ∧
    (sessionExit (⟨[0, 1]⟩ : ManagerState Nat) 0 .otherExc .fails).1 =
      disconnect ⟨[0, 1]⟩ 0 ∧
    (sessionExit (⟨[0, 1]⟩ : ManagerState Nat) 0 .otherExc .fails).2 = true :=
  c10_registry_after_exit Nat Unit ⟨[0, 1]⟩ 0 (by decide)

end IndicASR
